import Mathlib

/-!
Verification development for the netlytics.ai core: a shallow embedding of the
contact-parsing, enrichment, graph-construction, link-prediction, network-comparison
and date-normalization code, together with theorems settling the specification claims.

Conventions of the embedding:
* JavaScript strings are Lean String values (all inputs of interest are ASCII, where
  UTF-16 length and codepoint length agree).
* JavaScript number arithmetic on the scoring paths is modelled over the rationals;
  all weights involved are small decimal literals whose comparisons at the decision
  thresholds agree between binary doubles and exact rationals.
* Database tables are lists of row structures; an insert appends a row, an upsert is
  keyed as in the schema; query result order is the list order.
-/

namespace Netlytics

/-- JavaScript-style truthiness of an optional string field: present and non-empty. -/
def optTruthy : Option String → Bool
  | some s => s ≠ ""
  | none => false

/-- One step of substring search: does the pattern occur as a contiguous run of the
list, starting at any position?  Models the JavaScript method checking substring
containment on strings. -/
def charsContain (pat : List Char) : List Char → Bool
  | [] => pat.isPrefixOf ([] : List Char)
  | c :: cs => pat.isPrefixOf (c :: cs) || charsContain pat cs

/-- Model of the JavaScript substring-containment test on strings. -/
def jsIncludes (s pat : String) : Bool :=
  charsContain pat.toList s.toList

/-- Model of JavaScript lower-casing: character-wise lower-casing (the inputs of
interest are ASCII, where this is the JavaScript behavior). -/
def jsToLower (s : String) : String := String.mk (s.data.map Char.toLower)

/-- Model of the JavaScript lower-casing of an optional string followed by defaulting
an absent value to the empty string. -/
def jsLowerOpt : Option String → String
  | some s => jsToLower s
  | none => ""

/-- Model of the JavaScript trim: whitespace stripped from both ends. -/
def jsTrim (s : String) : String :=
  String.mk (((s.data.dropWhile Char.isWhitespace).reverse.dropWhile
    Char.isWhitespace).reverse)

/-- Splitter of a string at every occurrence of a separator character, as the
JavaScript single-character split: separators at the ends or adjacent separators
yield empty elements, and the empty string yields one empty element. -/
def jsSplitGo (sep : Char) : List Char → List Char → List String
  | [], acc => [String.mk acc.reverse]
  | c :: cs, acc =>
    if c = sep then String.mk acc.reverse :: jsSplitGo sep cs []
    else jsSplitGo sep cs (c :: acc)

/-- Model of the JavaScript single-character split. -/
def jsSplit (s : String) (sep : Char) : List String := jsSplitGo sep s.data []

/-- Characters treated as whitespace by the regular expression class used in the
title tokenizer (the ASCII whitespace characters, which are the ones arising here). -/
def isWsChar (c : Char) : Bool :=
  c = ' ' || c = '\t' || c = '\n' || c = '\r' || c = '\x0b' || c = '\x0c'

mutual

/-- State of the whitespace splitter while inside a token: accumulates the token
(reversed) and emits it at a whitespace character or at the end. -/
def splitWsGo : List Char → List Char → List String
  | [], acc => [String.mk acc.reverse]
  | c :: cs, acc =>
    if isWsChar c then String.mk acc.reverse :: splitWsSkip cs
    else splitWsGo cs (c :: acc)

/-- State of the whitespace splitter while inside a whitespace run: skips the rest of
the run; a run ending the string contributes a final empty token, as in JavaScript. -/
def splitWsSkip : List Char → List String
  | [] => [""]
  | c :: cs => if isWsChar c then splitWsSkip cs else splitWsGo cs [c]

end

/-- Model of splitting a JavaScript string on runs of whitespace: a leading or
trailing run yields an empty first or last element, and the empty string yields a
single empty element. -/
def splitWs (s : String) : List String :=
  splitWsGo s.toList []

/-- Profile row as stored in the profiles table and passed through the code. -/
structure Profile where
  id : String
  full_name : String
  linkedin_url : String
  email : Option String := none
  company : Option String := none
  title : Option String := none
  role_level : Option String := none
  job_function : Option String := none
  industry : Option String := none
  company_size : Option String := none
  skills : Option (List String) := none
  company_location : Option String := none
  is_public : Option Bool := none
  founded_year : Option String := none
  enriched_at : Option String := none
  tags : Option (List String) := none
  deriving DecidableEq, Repr

/-- The nine enrichment fields produced by one enrichment call (the partial profile
update returned by enrichProfile). -/
structure Enrichment where
  role_level : String
  job_function : String
  industry : String
  company_size : String
  skills : List String
  company_location : String
  is_public : Bool
  founded_year : String
  enriched_at : String
  deriving DecidableEq, Repr

/-- Rule-based fallback enrichment, translated clause by clause from
fallbackEnrichment: role level from title keywords, job function from title keywords,
industry from company keywords, canned skill lists per job function, company size
from the length of the lower-cased company string, public flag from company
substrings, location and founding year fixed to Unknown.  The `now` argument is the
timestamp taken at the call. -/
def fallbackEnrichment (profile : Profile) (now : String) : Enrichment :=
  let title := jsLowerOpt profile.title
  let roleLevel : String :=
    if jsIncludes title "ceo" || jsIncludes title "chief" || jsIncludes title "president" ||
        jsIncludes title "founder" || jsIncludes title "owner" || jsIncludes title "partner" then
      "Executive"
    else if jsIncludes title "manager" || jsIncludes title "director" ||
        jsIncludes title "head of" || jsIncludes title "lead" then
      "Manager"
    else "IC"
  let jobFunction : String :=
    if jsIncludes title "engineer" || jsIncludes title "developer" || jsIncludes title "programmer" then
      "Engineering"
    else if jsIncludes title "sales" || jsIncludes title "account" then "Sales"
    else if jsIncludes title "market" then "Marketing"
    else if jsIncludes title "product" then "Product"
    else if jsIncludes title "design" then "Design"
    else if jsIncludes title "data" || jsIncludes title "analyst" then "Data"
    else if jsIncludes title "hr" || jsIncludes title "human resources" || jsIncludes title "recruit" then
      "HR"
    else if jsIncludes title "finance" || jsIncludes title "account" then "Finance"
    else "Other"
  let company := jsLowerOpt profile.company
  let industry : String :=
    if jsIncludes company "tech" || jsIncludes company "software" || jsIncludes company "app" ||
        jsIncludes company "digital" || jsIncludes company "computer" then
      "Technology"
    else if jsIncludes company "bank" || jsIncludes company "finance" || jsIncludes company "capital" ||
        jsIncludes company "invest" || jsIncludes company "fund" then
      "Finance"
    else if jsIncludes company "health" || jsIncludes company "medical" ||
        jsIncludes company "hospital" || jsIncludes company "pharma" then
      "Healthcare"
    else if jsIncludes company "edu" || jsIncludes company "school" ||
        jsIncludes company "university" || jsIncludes company "college" then
      "Education"
    else if jsIncludes company "retail" || jsIncludes company "shop" || jsIncludes company "store" then
      "Retail"
    else "Other"
  let skills : List String :=
    if jobFunction = "Engineering" then
      ["Programming", "Software Development"] ++
      (if jsIncludes title "frontend" || jsIncludes title "front-end" || jsIncludes title "ui" then
        ["Frontend Development", "JavaScript", "React"]
      else if jsIncludes title "backend" || jsIncludes title "back-end" || jsIncludes title "api" then
        ["Backend Development", "API Design", "Databases"]
      else if jsIncludes title "full" then
        ["Full Stack Development", "JavaScript", "Databases"]
      else if jsIncludes title "mobile" then
        ["Mobile Development", "iOS", "Android"]
      else if jsIncludes title "devops" || jsIncludes title "cloud" then
        ["DevOps", "Cloud Computing", "CI/CD"]
      else [])
    else if jobFunction = "Sales" then
      ["Sales", "Negotiation", "Client Relationship Management"]
    else if jobFunction = "Marketing" then
      ["Marketing", "Social Media", "Content Creation"] ++
      (if jsIncludes title "digital" then ["Digital Marketing", "SEO", "SEM"] else [])
    else if jobFunction = "Product" then
      ["Product Management", "User Experience", "Roadmapping"]
    else if jobFunction = "Design" then
      ["Design", "User Experience", "Visual Design"] ++
      (if jsIncludes title "ux" then ["UX Design", "User Research", "Wireframing"]
      else if jsIncludes title "ui" then ["UI Design", "Visual Design", "Design Systems"]
      else [])
    else []
  { role_level := roleLevel
    job_function := jobFunction
    industry := industry
    company_size := if company.length > 20 then "Large" else "Small/Medium"
    skills := skills
    company_location := "Unknown"
    is_public := jsIncludes company "inc" || jsIncludes company "corp" || jsIncludes company "ltd"
    founded_year := "Unknown"
    enriched_at := now }

/-- Fields extracted from a successfully parsed Gemini JSON response. -/
structure GeminiData where
  seniority_level : String
  job_function : String
  industry : String
  company_size : String
  skills : Option (List String)
  company_location : String
  is_public : Bool
  founded_year : String
  deriving DecidableEq, Repr

/-- Outcome of the external enrichment call, covering every exit of the try block of
enrichProfile: a non-OK HTTP response, a response body without the expected JSON
path, a body whose generated text holds no JSON object, a JSON text that fails to
parse, or a successfully parsed object. -/
inductive GeminiOutcome where
  | httpError (status : Nat)
  | badBody
  | noJsonObject
  | jsonParseError
  | ok (d : GeminiData)
  deriving DecidableEq, Repr

/-- Whether the enrichment call failed at any point before a parsed object was
obtained (every such failure raises inside the try block). -/
def GeminiOutcome.failed : GeminiOutcome → Bool
  | .ok _ => false
  | _ => true

/-- Model of enrichProfile: on a successfully parsed response the nine enrichment
fields are taken from the response (an absent or non-array skills value becomes the
empty list); any failure is caught and answered by the rule-based fallback. -/
def enrichProfile (profile : Profile) (now : String) (outcome : GeminiOutcome) : Enrichment :=
  match outcome with
  | .ok d =>
    { role_level := d.seniority_level
      job_function := d.job_function
      industry := d.industry
      company_size := d.company_size
      skills := d.skills.getD []
      company_location := d.company_location
      is_public := d.is_public
      founded_year := d.founded_year
      enriched_at := now }
  | _ => fallbackEnrichment profile now

/-! Graph builder: nodes, edges and the three edge-generation passes. -/

/-- Property bag attached to a graph edge (the JSON payloads actually written by the
three passes: an affiliation edge carries the company, a title-similarity edge the
similarity, a mutual edge the shared-network count; a connection edge carries the
empty bag). -/
inductive EdgeProps where
  | empty
  | company (c : String)
  | similarity (s : ℚ)
  | sharedNetworks (n : Nat)
  deriving DecidableEq, Repr

/-- Row of the gnn_edges table.  The table has a surrogate primary key and no
uniqueness constraint over (source, target, type), so the table is a plain list. -/
structure GnnEdge where
  source_id : String
  target_id : String
  edge_type : String
  weight : ℚ
  properties : EdgeProps
  deriving DecidableEq, Repr

/-- Model of createEdge: a plain insert into gnn_edges, returning the row. -/
def createEdge (sourceId targetId : String) (edgeType : String) (weight : ℚ)
    (properties : EdgeProps) : GnnEdge :=
  { source_id := sourceId, target_id := targetId, edge_type := edgeType,
    weight := weight, properties := properties }

/-- Row of the gnn_node_profiles mapping table. -/
structure NodeProfileRow where
  node_id : String
  profile_id : String
  user_id : String
  deriving DecidableEq, Repr

/-- Row of the connections table as returned with the joined profile record
(the select of profile_id together with the full profiles row). -/
structure ConnRow where
  user_id : String
  profile : Profile
  deriving DecidableEq, Repr

/-- Database state read and written by the graph passes. -/
structure Db where
  profiles : List Profile
  connections : List ConnRow
  node_profiles : List NodeProfileRow
  edges : List GnnEdge
  deriving DecidableEq, Repr

/-- Profiles connected to one user, in query order (the joined profiles of the
connections rows of that user). -/
def userProfiles (userId : String) (db : Db) : List Profile :=
  (db.connections.filter (fun r => r.user_id == userId)).map (fun r => r.profile)

/-- Building profileToNodeMap by iterating the gnn_node_profiles rows and assigning
map[profile_id] := node_id lets a later row overwrite an earlier one, so a lookup
returns the node of the last row carrying that profile id. -/
def lookupNode (db : Db) (profileId : String) : Option String :=
  ((db.node_profiles.filter (fun r => r.profile_id == profileId)).map
    (fun r => r.node_id)).getLast?

/-- Lookup with the single-row semantics of the query builder: exactly one matching
row yields its node id, zero or several rows raise and the caller skips. -/
def lookupNodeSingle (db : Db) (profileId : String) : Option String :=
  match db.node_profiles.filter (fun r => r.profile_id == profileId) with
  | [r] => some r.node_id
  | _ => none

/-- Keys of a JavaScript object built by grouping, in first-insertion order: the
distinct truthy values of the grouping field over the profile list. -/
def groupKeys (f : Profile → Option String) (ps : List Profile) : List String :=
  (ps.filterMap (fun p => if optTruthy (f p) then f p else none)).dedup

/-- The group stored under one key: the profiles whose grouping field equals it, in
list order. -/
def groupOf (f : Profile → Option String) (ps : List Profile) (key : String) : List Profile :=
  ps.filter (fun p => f p == some key)

/-- All index pairs i < j of a list, in the nested-loop order of the passes. -/
def pairsOf : List α → List (α × α)
  | [] => []
  | x :: xs => xs.map (fun y => (x, y)) ++ pairsOf xs

/-- Edge written for one ordered pair of an affiliation group once both node ids
resolve: weight 1, property bag holding the company. -/
def affPairEdge (db : Db) (company : String) (pq : Profile × Profile) : Option GnnEdge :=
  match lookupNode db pq.1.id, lookupNode db pq.2.id with
  | some sourceNodeId, some targetNodeId =>
    some (createEdge sourceNodeId targetNodeId "affiliation" 1 (.company company))
  | _, _ => none

/-- Edges written for one company group: nothing for a singleton group, one edge per
ordered pair with both node ids resolvable otherwise. -/
def affGroupEdges (db : Db) (company : String) (group : List Profile) : List GnnEdge :=
  if group.length > 1 then (pairsOf group).filterMap (affPairEdge db company)
  else []

/-- Edges appended by one run of createAffiliationEdges for one user: profiles with a
truthy company are grouped by exact company string; inside a group of size above one,
every ordered pair with both node ids resolvable yields one affiliation edge of
weight 1 carrying the company. -/
def affNewEdges (userId : String) (db : Db) : List GnnEdge :=
  let profiles := userProfiles userId db
  (groupKeys (fun p => p.company) profiles).flatMap (fun company =>
    affGroupEdges db company (groupOf (fun p => p.company) profiles company))

/-- One run of the affiliation pass over the database: the new edges are inserted,
nothing else changes. -/
def createAffiliationEdges (userId : String) (db : Db) : Db :=
  { db with edges := db.edges ++ affNewEdges userId db }

/-- Title similarity as computed inside createTitleSimilarityEdges on the two
already lower-cased titles: tokens shared with the other title (counted with
multiplicity on the first title) over the number of distinct tokens of both. -/
def titleSimilarity (titleA titleB : String) : ℚ :=
  let wordsA := splitWs titleA
  let wordsB := splitWs titleB
  let commonWords := (wordsA.filter (fun word => wordsB.contains word)).length
  let uniqueWords := ((wordsA ++ wordsB).dedup).length
  if uniqueWords > 0 then (commonWords : ℚ) / (uniqueWords : ℚ) else 0

/-- Decision taken for one ordered pair of profiles inside the title-similarity
loop, after both node ids resolved: lower-case the titles, require both non-empty,
and create an edge exactly when the similarity reaches the threshold, with the
similarity as weight and property. -/
def titlePairEdge (threshold : ℚ) (sourceNodeId targetNodeId : String)
    (pa pb : Profile) : Option GnnEdge :=
  let titleA := jsLowerOpt pa.title
  let titleB := jsLowerOpt pb.title
  if titleA ≠ "" && titleB ≠ "" then
    let similarity := titleSimilarity titleA titleB
    if similarity ≥ threshold then
      some (createEdge sourceNodeId targetNodeId "title_similarity" similarity
        (.similarity similarity))
    else none
  else none

/-- Edges appended by one run of createTitleSimilarityEdges for one user: profiles
with a truthy job function are grouped by it; inside a group of size above one,
every ordered pair with both node ids resolvable is decided by titlePairEdge. -/
def titleNewEdges (userId : String) (threshold : ℚ) (db : Db) : List GnnEdge :=
  let profiles := userProfiles userId db
  (groupKeys (fun p => p.job_function) profiles).flatMap (fun jobFunction =>
    let group := groupOf (fun p => p.job_function) profiles jobFunction
    if group.length > 1 then
      (pairsOf group).filterMap (fun pq =>
        match lookupNode db pq.1.id, lookupNode db pq.2.id with
        | some sourceNodeId, some targetNodeId =>
          titlePairEdge threshold sourceNodeId targetNodeId pq.1 pq.2
        | _, _ => none)
    else [])

/-- One run of the title-similarity pass (default threshold 0.7 at the call site). -/
def createTitleSimilarityEdges (userId : String) (threshold : ℚ) (db : Db) : Db :=
  { db with edges := db.edges ++ titleNewEdges userId threshold db }

/-- Row returned by the stored procedure listing, for one mutual profile, another
profile appearing in the same networks together with the shared-network count. -/
structure SameNetworkRow where
  profile_id : String
  shared_networks : Nat
  deriving DecidableEq, Repr

/-- Row returned by the stored procedure listing profiles contributed by more than
one user, each with its owning users and the rows of the second procedure for it.
The procedures read the connections tables, not the edge table. -/
structure MutualProfileRow where
  profile_id : String
  user_ids : List String
  others : List SameNetworkRow
  deriving DecidableEq, Repr

/-- Edges appended by one run of createMutualAppearanceEdges, given the procedure
results: for each mutual profile whose node resolves by the single-row lookup, one
mutual edge per resolvable other profile, weighted by shared networks over the
number of owning users of the seed profile. -/
def mutualNewEdges (data : List MutualProfileRow) (db : Db) : List GnnEdge :=
  data.flatMap (fun mutualProfile =>
    match lookupNodeSingle db mutualProfile.profile_id with
    | none => []
    | some nodeId =>
      mutualProfile.others.filterMap (fun otherProfile =>
        match lookupNodeSingle db otherProfile.profile_id with
        | none => none
        | some otherNodeId =>
          let weight : ℚ := (otherProfile.shared_networks : ℚ) / (mutualProfile.user_ids.length : ℚ)
          some (createEdge nodeId otherNodeId "mutual" weight
            (.sharedNetworks otherProfile.shared_networks))))

/-- One run of the mutual-appearance pass over the database. -/
def createMutualAppearanceEdges (data : List MutualProfileRow) (db : Db) : Db :=
  { db with edges := db.edges ++ mutualNewEdges data db }

/-! Link prediction. -/

/-- Row inserted into gnn_predictions (the placeholder model id is constant and
omitted). -/
structure GnnPrediction where
  source_node_id : String
  target_node_id : String
  score : ℚ
  reason : String
  deriving DecidableEq, Repr

/-- Profile ids already connected to the user. -/
def connectedProfileIds (userId : String) (db : Db) : List String :=
  (db.connections.filter (fun r => r.user_id == userId)).map (fun r => r.profile.id)

/-- Candidate profiles of one prediction run: every profile the user is not
connected to, in table order. -/
def predictionCandidates (userId : String) (db : Db) : List Profile :=
  db.profiles.filter (fun p => !(connectedProfileIds userId db).contains p.id)

/-- Count of edges of one type touching a node as source or target. -/
def edgeCountTouching (db : Db) (edgeType nodeId : String) : Nat :=
  (db.edges.filter (fun e =>
    e.edge_type == edgeType && (e.source_id == nodeId || e.target_id == nodeId))).length

/-- Prediction row built for one candidate profile once its node id resolved:
weighted edge-type counts, clamped to one, and the reason text assembled from the
nonzero factors in the fixed order, with a generic fallback. -/
def predictionFor (userId : String) (db : Db) (nodeId : String) : GnnPrediction :=
  let mutualCount := edgeCountTouching db "mutual" nodeId
  let affiliationCount := edgeCountTouching db "affiliation" nodeId
  let titleSimilarityCount := edgeCountTouching db "title_similarity" nodeId
  let score : ℚ := min 1 ((mutualCount : ℚ) * 0.2 + (affiliationCount : ℚ) * 0.15 +
    (titleSimilarityCount : ℚ) * 0.1)
  let reasons : List String :=
    (if mutualCount > 0 then [toString mutualCount ++ " mutual connections"] else []) ++
    (if affiliationCount > 0 then [toString affiliationCount ++ " shared affiliations"] else []) ++
    (if titleSimilarityCount > 0 then [toString titleSimilarityCount ++ " similar roles"] else [])
  let reason :=
    if reasons.length > 0 then "Based on " ++ String.intercalate ", " reasons
    else "Based on network analysis"
  { source_node_id := "user_" ++ userId, target_node_id := nodeId,
    score := score, reason := reason }

/-- Model of generatePredictions: for every candidate profile whose node resolves by
the single-row lookup, one prediction row is built and persisted; a candidate whose
lookup raises is skipped and the loop continues. -/
def generatePredictions (userId : String) (db : Db) : List GnnPrediction :=
  (predictionCandidates userId db).filterMap (fun profile =>
    (lookupNodeSingle db profile.id).map (fun nodeId => predictionFor userId db nodeId))

/-! Network comparison. -/

/-- Factor breakdown stored in the details of a predicted match, with the raw
field-equality semantics of the source (no truthiness guard here, unlike the score). -/
structure MatchFactors where
  same_company : Bool
  same_job_function : Bool
  same_industry : Bool
  same_role_level : Bool
  shared_skills : Option (List String)
  deriving DecidableEq, Repr

/-- Detail payload of one comparison result. -/
inductive ResultDetails where
  | mutualConn
  | predicted (factors : MatchFactors)
  | overlappingTag (tag : String)
  deriving DecidableEq, Repr

/-- Row of the comparison_results table (session id omitted: all rows of one run
belong to the one session the run creates). -/
structure CompResult where
  result_type : String
  profile_a_id : Option String
  profile_b_id : Option String
  score : ℚ
  details : ResultDetails
  deriving DecidableEq, Repr

/-- Additive similarity score of compareNetworks for one non-mutual pair: company,
job function, industry and role level each require both fields truthy and equal;
each skill of A also held by B adds a twentieth. -/
def matchScore (profileA profileB : Profile) : ℚ :=
  (if optTruthy profileA.company && optTruthy profileB.company &&
      profileA.company == profileB.company then 0.3 else 0) +
  (if optTruthy profileA.job_function && optTruthy profileB.job_function &&
      profileA.job_function == profileB.job_function then 0.2 else 0) +
  (if optTruthy profileA.industry && optTruthy profileB.industry &&
      profileA.industry == profileB.industry then 0.2 else 0) +
  (if optTruthy profileA.role_level && optTruthy profileB.role_level &&
      profileA.role_level == profileB.role_level then 0.1 else 0) +
  (match profileA.skills, profileB.skills with
    | some skillsA, some skillsB =>
      ((skillsA.filter (fun skill => skillsB.contains skill)).length : ℚ) * 0.05
    | _, _ => 0)

/-- Skills of A also held by B as stored in the details payload: absent when A has
no skills list; empty when B has none. -/
def sharedSkillsOf (profileA profileB : Profile) : Option (List String) :=
  profileA.skills.map (fun skillsA =>
    skillsA.filter (fun skill => ((profileB.skills.map (fun sb => sb.contains skill)).getD false)))

/-- Factor breakdown as written into the details payload. -/
def matchFactors (profileA profileB : Profile) : MatchFactors :=
  { same_company := profileA.company == profileB.company
    same_job_function := profileA.job_function == profileB.job_function
    same_industry := profileA.industry == profileB.industry
    same_role_level := profileA.role_level == profileB.role_level
    shared_skills := sharedSkillsOf profileA profileB }

/-- Last-write-wins lookup of a row map keyed by profile id, as built by iterating
the rows and overwriting. -/
def lookupProfileLast (rows : List Profile) (profileId : String) : Option Profile :=
  (rows.filter (fun p => p.id == profileId)).getLast?

/-- Profile ids connected to both users, in the order of the first user's list. -/
def mutualIdsOf (connsA connsB : List Profile) : List String :=
  (connsA.map (fun p => p.id)).filter (fun i => (connsB.map (fun p => p.id)).contains i)

/-- Result row written for one mutual connection. -/
def mutualRow (profileId : String) : CompResult :=
  { result_type := "mutual_connection", profile_a_id := some profileId,
    profile_b_id := some profileId, score := 1, details := .mutualConn }

/-- Predicted-match rows written for one profile of the first user against every
non-mutual profile of the second: a row exactly when the additive score reaches the
threshold. -/
def predictedRowsFor (connsB : List Profile) (mutualProfileIds : List String)
    (profileIdA : String) (profileA : Profile) : List CompResult :=
  (connsB.map (fun p => p.id)).filterMap (fun profileIdB =>
    if mutualProfileIds.contains profileIdB then none else
    match lookupProfileLast connsB profileIdB with
    | none => none
    | some profileB =>
      let score := matchScore profileA profileB
      if score ≥ 0.3 then
        some { result_type := "predicted_match", profile_a_id := some profileIdA,
               profile_b_id := some profileIdB, score := score,
               details := .predicted (matchFactors profileA profileB) }
      else none)

/-- All predicted-match rows of one comparison run. -/
def predictedResultsOf (connsA connsB : List Profile) (mutualProfileIds : List String) :
    List CompResult :=
  (connsA.map (fun p => p.id)).flatMap (fun profileIdA =>
    if mutualProfileIds.contains profileIdA then [] else
    match lookupProfileLast connsA profileIdA with
    | none => []
    | some profileA => predictedRowsFor connsB mutualProfileIds profileIdA profileA)

/-- Result row written for one overlapping tag. -/
def tagRow (tag : String) : CompResult :=
  { result_type := "overlapping_tag", profile_a_id := none, profile_b_id := none,
    score := 1, details := .overlappingTag tag }

/-- Overlapping-tag rows of one comparison run: one per tag in both users' tag
vocabularies (each vocabulary in first-insertion order). -/
def tagResultsOf (connsA connsB : List Profile) : List CompResult :=
  let tagsA := (connsA.flatMap (fun p => p.tags.getD [])).dedup
  let tagsB := (connsB.flatMap (fun p => p.tags.getD [])).dedup
  (tagsA.filter (fun tag => tagsB.contains tag)).map tagRow

/-- Model of the result set written by compareNetworks, given the joined connection
profiles of the two users: one mutual_connection row per id connected to both; one
predicted_match row per non-mutual pair reaching the threshold, with score and
factor breakdown; one overlapping_tag row per tag in both tag vocabularies. -/
def compareResults (connsA connsB : List Profile) : List CompResult :=
  let mutualProfileIds := mutualIdsOf connsA connsB
  (mutualProfileIds.map mutualRow) ++
    predictedResultsOf connsA connsB mutualProfileIds ++ tagResultsOf connsA connsB

/-! Date normalization.  Instants are modelled as broken-down UTC civil datetimes;
the string kernel (construction from a string, canonical ISO rendering) models the
date built-in on the formats arising in this code.  All inputs are ASCII. -/

/-- Broken-down UTC civil datetime. -/
structure Civil where
  year : Nat
  month : Nat
  day : Nat
  hour : Nat
  minute : Nat
  second : Nat
  ms : Nat
  deriving DecidableEq, Repr

/-- Leap-year rule of the proleptic Gregorian calendar. -/
def isLeapYear (y : Nat) : Bool :=
  (y % 4 == 0 && y % 100 != 0) || y % 400 == 0

/-- Days in one month. -/
def daysInMonth (y m : Nat) : Nat :=
  if m == 2 then (if isLeapYear y then 29 else 28)
  else if m == 4 || m == 6 || m == 9 || m == 11 then 30
  else 31

/-- Datetime validity: the component ranges accepted by the string kernel and
representable in the canonical four-digit-year rendering. -/
def Civil.Valid (c : Civil) : Prop :=
  c.year ≤ 9999 ∧ 1 ≤ c.month ∧ c.month ≤ 12 ∧ 1 ≤ c.day ∧
    c.day ≤ daysInMonth c.year c.month ∧ c.hour < 24 ∧ c.minute < 60 ∧
    c.second < 60 ∧ c.ms < 1000

instance (c : Civil) : Decidable c.Valid := by
  unfold Civil.Valid; infer_instance

/-- Decimal digit character. -/
def digitChar (n : Nat) : Char := Char.ofNat (48 + n)

/-- Two-digit zero-padded rendering. -/
def pad2 (n : Nat) : List Char := [digitChar (n / 10 % 10), digitChar (n % 10)]

/-- Three-digit zero-padded rendering. -/
def pad3 (n : Nat) : List Char :=
  [digitChar (n / 100 % 10), digitChar (n / 10 % 10), digitChar (n % 10)]

/-- Four-digit zero-padded rendering. -/
def pad4 (n : Nat) : List Char :=
  [digitChar (n / 1000 % 10), digitChar (n / 100 % 10), digitChar (n / 10 % 10),
    digitChar (n % 10)]

/-- Canonical ISO rendering of a civil datetime, as the character list. -/
def toISOChars (c : Civil) : List Char :=
  pad4 c.year ++ '-' :: pad2 c.month ++ '-' :: pad2 c.day ++ 'T' :: pad2 c.hour ++
    ':' :: pad2 c.minute ++ ':' :: pad2 c.second ++ '.' :: pad3 c.ms ++ ['Z']

/-- Canonical ISO rendering of a civil datetime. -/
def toISOString (c : Civil) : String := String.mk (toISOChars c)

/-- Greedy decimal-digit reader: value so far, digits consumed so far, and the
remaining characters. -/
def readNatAux : List Char → Nat → Nat → Nat × Nat × List Char
  | c :: cs, acc, count =>
    if c.isDigit then readNatAux cs (acc * 10 + (c.toNat - 48)) (count + 1)
    else (acc, count, c :: cs)
  | [], acc, count => (acc, count, [])

/-- Component validation and construction of the string kernel: the candidate
component tuple becomes a datetime exactly when every component is in range. -/
def mkCivil (y mo d h mi s ms : Nat) : Option Civil :=
  if y ≤ 9999 ∧ 1 ≤ mo ∧ mo ≤ 12 ∧ 1 ≤ d ∧ d ≤ daysInMonth y mo ∧ h < 24 ∧
      mi < 60 ∧ s < 60 ∧ ms < 1000 then
    some ⟨y, mo, d, h, mi, s, ms⟩
  else none

/-- Terminal part of the time-of-day parse: nothing, a Z suffix, a UTC suffix, or a
twelve-hour-clock meridiem converted onto the hour. -/
def finishTime (y mo d h mi s ms : Nat) : List Char → Option (Nat × Nat × Nat × Nat × Nat × Nat × Nat)
  | [] => some (y, mo, d, h, mi, s, ms)
  | ['Z'] => some (y, mo, d, h, mi, s, ms)
  | [' ', 'U', 'T', 'C'] => some (y, mo, d, h, mi, s, ms)
  | [w, a, 'M'] =>
    if isWsChar w && (a == 'A' || a == 'P') then
      if 1 ≤ h ∧ h ≤ 12 then
        some (y, mo, d, (if a == 'A' then h % 12 else h % 12 + 12), mi, s, ms)
      else none
    else none
  | _ => none

/-- Optional fractional-millisecond part after the seconds, then the terminal part. -/
def parseMsPart (y mo d h mi s : Nat) : List Char → Option (Nat × Nat × Nat × Nat × Nat × Nat × Nat)
  | '.' :: r =>
    let (msRaw, msc, r2) := readNatAux r 0 0
    if 1 ≤ msc ∧ msc ≤ 3 then finishTime y mo d h mi s (msRaw * 10 ^ (3 - msc)) r2
    else none
  | r => finishTime y mo d h mi s 0 r

/-- Optional seconds part after the minutes. -/
def parseSecPart (y mo d h mi : Nat) : List Char → Option (Nat × Nat × Nat × Nat × Nat × Nat × Nat)
  | ':' :: r =>
    let (s, sc, r2) := readNatAux r 0 0
    if 1 ≤ sc ∧ sc ≤ 2 then parseMsPart y mo d h mi s r2 else none
  | r => parseMsPart y mo d h mi 0 r

/-- Time-of-day parse after the date and its separator. -/
def parseTimePart (y mo d : Nat) (cs : List Char) : Option (Nat × Nat × Nat × Nat × Nat × Nat × Nat) :=
  let (h, hc, r1) := readNatAux cs 0 0
  if 1 ≤ hc ∧ hc ≤ 2 then
    match r1 with
    | ':' :: r2 =>
      let (mi, mic, r3) := readNatAux r2 0 0
      if 1 ≤ mic ∧ mic ≤ 2 then parseSecPart y mo d h mi r3 else none
    | _ => none
  else none

/-- Dash-separated datetime parse: four-digit year, one-or-two-digit month and day,
optionally a T or space separator and a time of day. -/
def parseDash (cs : List Char) : Option (Nat × Nat × Nat × Nat × Nat × Nat × Nat) :=
  let (y, yc, r1) := readNatAux cs 0 0
  if yc = 4 then
    match r1 with
    | '-' :: r2 =>
      let (mo, mc, r3) := readNatAux r2 0 0
      if 1 ≤ mc ∧ mc ≤ 2 then
        match r3 with
        | '-' :: r4 =>
          let (d, dc, r5) := readNatAux r4 0 0
          if 1 ≤ dc ∧ dc ≤ 2 then
            match r5 with
            | [] => some (y, mo, d, 0, 0, 0, 0)
            | sep :: r6 =>
              if sep == 'T' || isWsChar sep then parseTimePart y mo d r6 else none
          else none
        | _ => none
      else none
    | _ => none
  else none

/-- Three-letter month names, matched case-insensitively. -/
def monthNameVal (a b c : Char) : Option Nat :=
  [("jan", 1), ("feb", 2), ("mar", 3), ("apr", 4), ("may", 5), ("jun", 6),
    ("jul", 7), ("aug", 8), ("sep", 9), ("oct", 10), ("nov", 11), ("dec", 12)].lookup
    (String.mk [a.toLower, b.toLower, c.toLower])

/-- Day month-name year datetime parse (midnight). -/
def parseDdMon (cs : List Char) : Option (Nat × Nat × Nat × Nat × Nat × Nat × Nat) :=
  let (d, dc, r1) := readNatAux cs 0 0
  if 1 ≤ dc ∧ dc ≤ 2 then
    match r1 with
    | w :: a :: b :: c :: w2 :: rest =>
      if isWsChar w && isWsChar w2 then
        match monthNameVal a b c with
        | some mo =>
          let (y, yc, r2) := readNatAux rest 0 0
          if yc = 4 ∧ r2 = [] then some (y, mo, d, 0, 0, 0, 0) else none
        | none => none
      else none
    | _ => none
  else none

/-- Raw component tuple recognized by the string kernel. -/
def parseCandidate (cs : List Char) : Option (Nat × Nat × Nat × Nat × Nat × Nat × Nat) :=
  parseDash cs <|> parseDdMon cs

/-- String kernel of date construction: recognize a component tuple, then validate
it; an unrecognized or out-of-range string is the invalid date. -/
def jsNewDate (s : String) : Option Civil :=
  (parseCandidate s.toList).bind (fun t =>
    mkCivil t.1 t.2.1 t.2.2.1 t.2.2.2.1 t.2.2.2.2.1 t.2.2.2.2.2.1 t.2.2.2.2.2.2)

/-- Character membership in a string. -/
def containsChar (s : String) (c : Char) : Bool := s.toList.contains c

/-- Tail of the first search pattern after its leading digits: a whitespace
character, three letters, a whitespace character, four digits. -/
def monTail : List Char → Bool
  | w :: a :: b :: c :: w2 :: y1 :: y2 :: y3 :: y4 :: _ =>
    isWsChar w && a.isAlpha && b.isAlpha && c.isAlpha && isWsChar w2 &&
      y1.isDigit && y2.isDigit && y3.isDigit && y4.isDigit
  | _ => false

/-- Match of the day-month-name-year search pattern at the head of the characters:
one or two digits, then the pattern tail. -/
def ddMonAt : List Char → Bool
  | d :: rest =>
    d.isDigit &&
      ((match rest with
        | d2 :: rest2 => d2.isDigit && monTail rest2
        | [] => false) ||
        monTail rest)
  | [] => false

/-- Unanchored regular-expression search: does the pattern match at any position? -/
def regexSearch (matchAt : List Char → Bool) (cs : List Char) : Bool :=
  cs.tails.any matchAt

/-- Tail of the slash-time search pattern after the hour: colon, two digits,
whitespace, meridiem letter, M. -/
def stAfterHour : List Char → Bool
  | ':' :: m1 :: m2 :: w :: ap :: 'M' :: _ =>
    m1.isDigit && m2.isDigit && isWsChar w && (ap == 'A' || ap == 'P')
  | _ => false

/-- Tail of the slash-time search pattern after the two-digit year: whitespace then
a one-or-two-digit hour then the rest. -/
def stAfterYear : List Char → Bool
  | w :: h1 :: rest =>
    isWsChar w && h1.isDigit &&
      ((match rest with
        | h2 :: rest2 => h2.isDigit && stAfterHour rest2
        | [] => false) ||
        stAfterHour rest)
  | _ => false

/-- Tail of the slash-time search pattern after the second slash. -/
def stAfterSlash2 : List Char → Bool
  | y1 :: y2 :: rest => y1.isDigit && y2.isDigit && stAfterYear rest
  | _ => false

/-- Tail of the slash-time search pattern after the first slash: one-or-two-digit
day then the second slash. -/
def stAfterSlash1 : List Char → Bool
  | d1 :: rest =>
    d1.isDigit &&
      ((match rest with
        | d2 :: '/' :: rest2 => d2.isDigit && stAfterSlash2 rest2
        | _ => false) ||
        (match rest with
        | '/' :: rest2 => stAfterSlash2 rest2
        | _ => false))
  | _ => false

/-- Match of the slash-time search pattern at the head of the characters. -/
def slashTimeAt : List Char → Bool
  | m1 :: rest =>
    m1.isDigit &&
      ((match rest with
        | m2 :: '/' :: rest2 => m2.isDigit && stAfterSlash1 rest2
        | _ => false) ||
        (match rest with
        | '/' :: rest2 => stAfterSlash1 rest2
        | _ => false))
  | [] => false

/-- Capture attempt of the slash-time rewrite pattern at one position: captures the
month digits, day digits, two year digits and the remaining text of the line (the
dot class stops at a line terminator), with the greedy backtracking order of the
one-or-two-digit groups. -/
def capWs (m d y : List Char) : List Char → Option (String × String × String × String)
  | w :: rest =>
    if isWsChar w then
      some (String.mk m, String.mk d, String.mk y,
        String.mk (rest.takeWhile (fun c => c ≠ '\n' && c ≠ '\r')))
    else none
  | [] => none

/-- Capture step after the second slash: exactly two year digits. -/
def capSlash2 (m d : List Char) : List Char → Option (String × String × String × String)
  | y1 :: y2 :: rest =>
    if y1.isDigit && y2.isDigit then capWs m d [y1, y2] rest else none
  | _ => none

/-- Capture step after the first slash: greedy one-or-two-digit day. -/
def capSlash1 (m : List Char) : List Char → Option (String × String × String × String)
  | a :: rest =>
    if a.isDigit then
      (match rest with
        | b :: '/' :: rest2 =>
          if b.isDigit then
            capSlash2 m [a, b] rest2 <|>
              (match rest with
                | '/' :: rest3 => capSlash2 m [a] rest3
                | _ => none)
          else
            match rest with
            | '/' :: rest3 => capSlash2 m [a] rest3
            | _ => none
        | '/' :: rest3 => capSlash2 m [a] rest3
        | _ => none)
    else none
  | [] => none

/-- Capture attempt of the slash-time rewrite pattern at the head: greedy
one-or-two-digit month. -/
def capFrom : List Char → Option (String × String × String × String)
  | a :: rest =>
    if a.isDigit then
      (match rest with
        | b :: '/' :: rest2 =>
          if b.isDigit then
            capSlash1 [a, b] rest2 <|>
              (match rest with
                | '/' :: rest3 => capSlash1 [a] rest3
                | _ => none)
          else
            match rest with
            | '/' :: rest3 => capSlash1 [a] rest3
            | _ => none
        | '/' :: rest3 => capSlash1 [a] rest3
        | _ => none)
    else none
  | [] => none

/-- Leftmost capture of the slash-time rewrite pattern. -/
def capSearch : List Char → Option (String × String × String × String)
  | [] => none
  | c :: cs => capFrom (c :: cs) <|> capSearch cs

/-- Shared exit of every parse branch: render the constructed date, except that an
invalid date raises at its rendering and the catch-all answers the current instant
(which is also the exit of the generic final attempt). -/
def dateOrNow (s : String) (now : Civil) : String :=
  match jsNewDate s with
  | some c => toISOString c
  | none => toISOString now

/-- Branches of parseConnectionDate after the slash branch declined. -/
def parseConnTail (s : String) (now : Civil) : String :=
  if regexSearch ddMonAt s.toList then dateOrNow s now
  else if containsChar s '-' && containsChar s ':' then dateOrNow s now
  else if regexSearch slashTimeAt s.toList then
    match capSearch s.toList with
    | some cap =>
      dateOrNow ("20" ++ cap.2.2.1 ++ "-" ++ cap.1 ++ "-" ++ cap.2.1 ++ " " ++ cap.2.2.2) now
    | none => dateOrNow s now
  else dateOrNow s now

/-- Model of parseConnectionDate: absent or empty input answers the current
instant; a slash-containing input with exactly three slash parts is reassembled
year-month-day and rendered; otherwise the remaining shape branches run; every
failure exits with the current instant. -/
def parseConnectionDate (dateStr : Option String) (now : Civil) : String :=
  match dateStr with
  | none => toISOString now
  | some s =>
    if s = "" then toISOString now
    else if containsChar s '/' then
      match jsSplit s '/' with
      | [month, day, year] => dateOrNow (year ++ "-" ++ month ++ "-" ++ day) now
      | _ => parseConnTail s now
    else parseConnTail s now

/-! Tabular parser: header-row location and row parsing of parseCSV. -/

/-- Model of the JavaScript prefix test on strings. -/
def jsStartsWith (s pat : String) : Bool :=
  pat.toList.isPrefixOf s.toList

/-- First header condition: a line whose trimmed text starts with First Name, or
containing the First Name header tokens. -/
def headerCond1 (line : String) : Bool :=
  jsStartsWith (jsTrim line) "First Name" || jsIncludes line "First Name,Last Name" ||
    jsIncludes line "First Name,"

/-- Second header condition: a comma together with a common field name. -/
def headerCond2 (line : String) : Bool :=
  jsIncludes line "," &&
    (jsIncludes line "Name" || jsIncludes line "Email" || jsIncludes line "URL")

/-- Header-row location: the first line satisfying the first condition; otherwise
the first of the first ten lines satisfying the second; otherwise line zero. -/
def findHeaderRow (ls : List String) : Nat :=
  match ls.findIdx? (fun line => headerCond1 line) with
  | some i => i
  | none =>
    match (ls.take 10).findIdx? (fun line => headerCond2 line) with
    | some i => i
    | none => 0

/-- Quoted-field scan: consumes the body after an opening quote, treating a doubled
quote as content, and returns the consumed slice (quotes included) and the rest; an
unclosed quote fails. -/
def scanQuotedBody : List Char → List Char → Option (List Char × List Char)
  | '"' :: '"' :: cs, acc => scanQuotedBody cs ('"' :: '"' :: acc)
  | '"' :: cs, acc => some (('"' :: acc).reverse, cs)
  | c :: cs, acc => scanQuotedBody cs (c :: acc)
  | [], _ => none

/-- Unquoted-field scan: everything up to a comma, the comma included in the token
when present. -/
def scanUnquoted (cs : List Char) : String × List Char :=
  let field := cs.takeWhile (fun c => c ≠ ',')
  match cs.drop field.length with
  | ',' :: rest => (String.mk (field ++ [',']), rest)
  | rest => (String.mk field, rest)

/-- One token of the field tokenizer: a quoted field must be followed by a comma or
the end of the line, otherwise the position is rescanned as an unquoted field. -/
def scanOne (cs : List Char) : String × List Char :=
  match cs with
  | '"' :: body =>
    (match scanQuotedBody body ['"'] with
      | some (slice, rest) =>
        (match rest with
          | ',' :: rest2 => (String.mk (slice ++ [',']), rest2)
          | [] => (String.mk slice, [])
          | _ => scanUnquoted cs)
      | none => scanUnquoted cs)
  | _ => scanUnquoted cs

/-- Token list of one line under the global field pattern, including the final
empty match the pattern produces at the end of the line.  The fuel equals the
remaining length plus one and never runs out, since a scan of a non-empty rest
consumes at least one character. -/
def csvTokensAux : Nat → List Char → List String
  | _, [] => [""]
  | 0, _ => []
  | fuel + 1, c :: cs =>
    let (tok, rest) := scanOne (c :: cs)
    tok :: csvTokensAux fuel rest

/-- All field tokens of one line. -/
def csvTokens (cs : List Char) : List String :=
  csvTokensAux (cs.length + 1) cs

/-- Cleanup of one raw token under the two replacements and the trim: one leading
quote is removed, one trailing quote or comma is removed, doubled quotes collapse. -/
def undouble : List Char → List Char
  | '"' :: '"' :: cs => '"' :: undouble cs
  | c :: cs => c :: undouble cs
  | [] => []

/-- Cleaned token value. -/
def cleanValue (v : String) : String :=
  let l := v.toList
  let l1 := match l with
    | '"' :: rest => rest
    | _ => l
  let l2 := match l1.getLast? with
    | some '"' => l1.dropLast
    | some ',' => l1.dropLast
    | _ => l1
  jsTrim (String.mk (undouble l2))

/-- Record assignment list of one row: position j of the overlapping prefix assigns
the j-th header to the j-th cleaned value when the value is non-empty; a later
assignment to the same header overwrites an earlier one at lookup. -/
def rowContact (headers vals : List String) : List (String × String) :=
  (List.range (min headers.length vals.length)).filterMap (fun j =>
    let v := vals.getD j ""
    if v ≠ "" then some (headers.getD j "", v) else none)

/-- Lookup of a record field under overwrite semantics. -/
def contactGet (contact : List (String × String)) (key : String) : Option String :=
  ((contact.filter (fun kv => kv.1 == key)).map (fun kv => kv.2)).getLast?

/-- Cleaned header names of the header line. -/
def headerNames (headerLine : String) : List String :=
  (jsSplit headerLine ',').map (fun h =>
    String.mk ((jsTrim h).data.filter (fun c => c ≠ '"')))

/-- Body parse of parseCSV below a given header row: empty lines and rows without
both names are skipped, every other line becomes one contact record. -/
def parseCSVFrom (ls : List String) (headerRowIndex : Nat) : List (List (String × String)) :=
  let headers := headerNames (ls.getD headerRowIndex "")
  (ls.drop (headerRowIndex + 1)).filterMap (fun line =>
    if jsTrim line = "" then none
    else
      let values := csvTokens line.toList
      if values.length = 0 then none
      else
        let cleanValues := values.map cleanValue
        let contact := rowContact headers cleanValues
        if optTruthy (contactGet contact "First Name") &&
            optTruthy (contactGet contact "Last Name") then
          some contact
        else none)

/-- Model of parseCSV: locate the header row, then parse every later line. -/
def parseCSV (content : String) : List (List (String × String)) :=
  let ls := jsSplit content '\n'
  parseCSVFrom ls (findHeaderRow ls)

/-! Specification-side formulas and concrete sample data used by the theorems. -/

/-- Reason string as the specification words it: the nonzero factors in the fixed
order mutual, affiliation, title-similarity, comma-joined, or the generic fallback
when no factor is nonzero.  Stated independently of the translated code to be
compared with it. -/
def specReason (mutualCount affiliationCount titleSimilarityCount : Nat) : String :=
  let parts :=
    [(mutualCount, " mutual connections"), (affiliationCount, " shared affiliations"),
      (titleSimilarityCount, " similar roles")].filterMap (fun ct =>
      if ct.1 > 0 then some (toString ct.1 ++ ct.2) else none)
  if parts = [] then "Based on network analysis" else "Based on " ++ String.intercalate ", " parts

/-- Predicted-match row as the specification describes it for a pair, carrying the
additive score and the factor breakdown. -/
def specPredictedRow (pa pb : Profile) : CompResult :=
  { result_type := "predicted_match", profile_a_id := some pa.id,
    profile_b_id := some pb.id, score := matchScore pa pb,
    details := .predicted (matchFactors pa pb) }

/-- Sample profile: first Acme employee. -/
def profAcme1 : Profile :=
  { id := "p1", full_name := "Ada One", linkedin_url := "u1", company := some "Acme" }

/-- Sample profile: second Acme employee. -/
def profAcme2 : Profile :=
  { id := "p2", full_name := "Ben Two", linkedin_url := "u2", company := some "Acme" }

/-- Sample database: one user connected to the two Acme profiles, both mapped to
nodes, no edge yet. -/
def dbAcme : Db :=
  { profiles := [profAcme1, profAcme2]
    connections := [⟨"u", profAcme1⟩, ⟨"u", profAcme2⟩]
    node_profiles := [⟨"n1", "p1", "u"⟩, ⟨"n2", "p2", "u"⟩]
    edges := [] }

/-- Sample profile used by the enrichment witnesses. -/
def profEng : Profile :=
  { id := "p9", full_name := "Eve Nine", linkedin_url := "u9",
    title := some "Senior Software Engineer", company := some "Acme Inc" }

/-- Sample profile connected to the prediction witness user. -/
def profQ1 : Profile := { id := "q1", full_name := "Cal One", linkedin_url := "v1" }

/-- Sample profile not yet connected to the prediction witness user. -/
def profQ2 : Profile := { id := "q2", full_name := "Dee Two", linkedin_url := "v2" }

/-- Sample profile connected to both comparison witness users. -/
def profW1 : Profile := { id := "p1", full_name := "Win One", linkedin_url := "w1" }

/-- Sample profile connected only to comparison witness user A. -/
def profW2 : Profile :=
  { id := "p2w", full_name := "Win Two", linkedin_url := "w2", company := some "Globex" }

/-- Sample profile connected only to comparison witness user B. -/
def profW3 : Profile :=
  { id := "p3w", full_name := "Win Three", linkedin_url := "w3", company := some "Globex" }

/-- Connection profiles of comparison witness user A. -/
def connsWA : List Profile := [profW1, profW2]

/-- Connection profiles of comparison witness user B. -/
def connsWB : List Profile := [profW1, profW3]

/-- Sample database for the prediction witness: one connected and one unconnected
profile, the unconnected one mapped to a node touched by one mutual edge. -/
def dbPred : Db :=
  { profiles := [profQ1, profQ2]
    connections := [⟨"u", profQ1⟩]
    node_profiles := [⟨"nq2", "q2", "u"⟩]
    edges := [⟨"nq2", "nx", "mutual", 1, .sharedNetworks 2⟩] }

/-! Theorems. -/

/-- C10: whenever the rule-based fallback enrichment runs, the fields not covered by
the title and company keyword rules are fixed functions of the company string:
company_size is Large exactly when the lower-cased company string is longer than 20
characters and Small/Medium otherwise, is_public is true exactly when that string
contains inc, corp or ltd, and company_location and founded_year are always
Unknown. -/
theorem fallback_fixed_company_fields (p : Profile) (now : String) :
    (fallbackEnrichment p now).company_size =
      (if (jsLowerOpt p.company).length > 20 then "Large" else "Small/Medium") ∧
    (fallbackEnrichment p now).is_public =
      (jsIncludes (jsLowerOpt p.company) "inc" || jsIncludes (jsLowerOpt p.company) "corp" ||
        jsIncludes (jsLowerOpt p.company) "ltd") ∧
    (fallbackEnrichment p now).company_location = "Unknown" ∧
    (fallbackEnrichment p now).founded_year = "Unknown" :=
  ⟨rfl, rfl, rfl, rfl⟩

/-- C6: whenever the enrichment call fails at any point (non-OK response, missing or
invalid JSON), enrichProfile returns exactly the rule-based fallback field set
derived from the profile, with no AI-sourced field mixed in. -/
theorem enrich_failure_fallback (p : Profile) (now : String) (o : GeminiOutcome)
    (h : o.failed = true) : enrichProfile p now o = fallbackEnrichment p now := by
  cases o with
  | ok d => simp [GeminiOutcome.failed] at h
  | httpError s => rfl
  | badBody => rfl
  | noJsonObject => rfl
  | jsonParseError => rfl

/-- Witness for C6 at a concrete failing outcome and profile. -/
theorem enrich_failure_fallback_witness :
    (GeminiOutcome.httpError 500).failed = true ∧
      enrichProfile profEng "2025-01-01" (GeminiOutcome.httpError 500) =
        fallbackEnrichment profEng "2025-01-01" :=
  ⟨rfl, enrich_failure_fallback profEng "2025-01-01" (GeminiOutcome.httpError 500) rfl⟩

/-- C8: for an absent or empty date string, and for any input matching none of the
supported shapes that the datetime kernel cannot construct a date from,
parseConnectionDate answers the current instant at call time; being a total
function into strings it never fails. -/
theorem parse_connection_date_absent_or_unparsed (now : Civil) :
    parseConnectionDate none now = toISOString now ∧
    parseConnectionDate (some "") now = toISOString now ∧
    (∀ s : String, s ≠ "" →
      containsChar s '/' = false →
      regexSearch ddMonAt s.toList = false →
      (containsChar s '-' && containsChar s ':') = false →
      regexSearch slashTimeAt s.toList = false →
      jsNewDate s = none →
      parseConnectionDate (some s) now = toISOString now) := by
  refine ⟨rfl, rfl, fun s hne hslash hmon hdash hst hparse => ?_⟩
  simp only [parseConnectionDate, if_neg hne, hslash, Bool.false_eq_true, if_false,
    parseConnTail, hmon, hdash, hst, dateOrNow, hparse]

/-- Witness for C8 at a concrete unsupported input. -/
theorem parse_connection_date_absent_witness :
    ("hello world" : String) ≠ "" ∧
      parseConnectionDate (some "hello world") ⟨2026, 1, 2, 3, 4, 5, 6⟩ =
        toISOString ⟨2026, 1, 2, 3, 4, 5, 6⟩ :=
  ⟨by decide,
    (parse_connection_date_absent_or_unparsed ⟨2026, 1, 2, 3, 4, 5, 6⟩).2.2 "hello world"
      (by decide) (by decide) (by decide) (by decide) (by decide) (by decide)⟩

/-- C1 counterexample: the affiliation pass is not idempotent.  Over a database
with two persisted connections to profiles sharing one company, a second run over
the same connections changes the edge table: the pair ends with two affiliation
edges, because edges are written with a plain insert and the edge table has no
uniqueness constraint over source, target and type. -/
theorem affiliation_pass_rerun_duplicates_cex :
    (createAffiliationEdges "u" (createAffiliationEdges "u" dbAcme)).edges ≠
      (createAffiliationEdges "u" dbAcme).edges ∧
    ((createAffiliationEdges "u" (createAffiliationEdges "u" dbAcme)).edges.filter
      (fun e => e.source_id == "n1" && e.target_id == "n2" &&
        e.edge_type == "affiliation")).length = 2 := by
  constructor
  · decide
  · decide

/-- C1 amended: each edge-generation pass recomputes its edge list from the
persisted connections and mappings only and appends it with plain inserts, so a
second run over the same persisted connections appends the same edges again — one
duplicate edge of the same type per qualifying node pair — instead of leaving the
edge set unchanged. -/
theorem edge_passes_rerun_append_duplicates (u : String) (th : ℚ)
    (data : List MutualProfileRow) (db : Db) :
    (createAffiliationEdges u (createAffiliationEdges u db)).edges =
      db.edges ++ affNewEdges u db ++ affNewEdges u db ∧
    (createTitleSimilarityEdges u th (createTitleSimilarityEdges u th db)).edges =
      db.edges ++ titleNewEdges u th db ++ titleNewEdges u th db ∧
    (createMutualAppearanceEdges data (createMutualAppearanceEdges data db)).edges =
      db.edges ++ mutualNewEdges data db ++ mutualNewEdges data db :=
  ⟨rfl, rfl, rfl⟩

/-- The whitespace splitter states never produce an empty token list. -/
theorem splitWs_parts_ne_nil (cs : List Char) :
    (∀ acc, splitWsGo cs acc ≠ []) ∧ splitWsSkip cs ≠ [] := by
  induction cs with
  | nil => exact ⟨fun acc => by simp [splitWsGo], by simp [splitWsSkip]⟩
  | cons c cs ih =>
    refine ⟨fun acc => ?_, ?_⟩
    · by_cases h : isWsChar c = true
      · simp [splitWsGo, h]
      · simpa [splitWsGo, h] using ih.1 (c :: acc)
    · by_cases h : isWsChar c = true
      · simpa [splitWsSkip, h] using ih.2
      · simpa [splitWsSkip, h] using ih.1 [c]

/-- The token list of a title is never empty. -/
theorem splitWs_ne_nil (s : String) : splitWs s ≠ [] :=
  (splitWs_parts_ne_nil s.toList).1 []

/-- C4 counterexample: for profiles whose identical title repeats a token, the
title-similarity score of the pair is not 1.0 — the decision function run on the
pair at the default threshold creates an edge of weight 3/2. -/
theorem title_similarity_identical_cex :
    titleSimilarity "senior senior engineer" "senior senior engineer" = 3 / 2 ∧
    ((3 : ℚ) / 2 ≠ 1) ∧
    titlePairEdge (7 / 10) "n1" "n2"
      { id := "p1", full_name := "A", linkedin_url := "u1",
        title := some "Senior Senior Engineer" }
      { id := "p2", full_name := "B", linkedin_url := "u2",
        title := some "Senior Senior Engineer" } =
      some (createEdge "n1" "n2" "title_similarity" (3 / 2) (.similarity (3 / 2))) := by
  have h1 : ((splitWs "senior senior engineer").filter
      (fun word => (splitWs "senior senior engineer").contains word)).length = 3 := by decide
  have h2 : ((splitWs "senior senior engineer" ++
      splitWs "senior senior engineer").dedup).length = 2 := by decide
  have hsim : titleSimilarity "senior senior engineer" "senior senior engineer" = 3 / 2 := by
    simp only [titleSimilarity, h1, h2]
    norm_num
  have hlow : jsLowerOpt (some "Senior Senior Engineer") = "senior senior engineer" := by decide
  refine ⟨hsim, by norm_num, ?_⟩
  simp only [titlePairEdge, hlow, hsim]
  norm_num
  exact fun h => absurd h (by decide)

/-- The list union of a list with a superset of it collapses onto the superset. -/
theorem union_eq_self_of_subset {α : Type} [DecidableEq α] (l₁ l₂ : List α)
    (h : ∀ x ∈ l₁, x ∈ l₂) : l₁ ∪ l₂ = l₂ := by
  induction l₁ with
  | nil => simp
  | cons a l ih =>
    have ha : a ∈ l₂ := h a (by simp)
    rw [List.cons_union, ih (fun x hx => h x (by simp [hx])), List.insert_of_mem ha]

/-- C4 amended: the similarity of a pair of lower-cased titles is the token count of
the first also occurring in the second (with multiplicity) over the distinct token
count of both; it is 1.0 for identical titles whose token list has no repeats (and
can exceed 1.0 otherwise), it is 0.0 for titles sharing no token, and inside a
job-function group the pair decision creates a title_similarity edge exactly when
the similarity reaches the threshold, with the similarity as its weight. -/
theorem title_similarity_spec (th : ℚ) :
    (∀ t : String, (splitWs t).Nodup → titleSimilarity t t = 1) ∧
    (∀ ta tb : String, (∀ w ∈ splitWs ta, w ∉ splitWs tb) → titleSimilarity ta tb = 0) ∧
    (∀ a b : String, ∀ pa pb : Profile,
      titlePairEdge th a b pa pb =
        if jsLowerOpt pa.title ≠ "" ∧ jsLowerOpt pb.title ≠ "" ∧
            titleSimilarity (jsLowerOpt pa.title) (jsLowerOpt pb.title) ≥ th then
          some (createEdge a b "title_similarity"
            (titleSimilarity (jsLowerOpt pa.title) (jsLowerOpt pb.title))
            (.similarity (titleSimilarity (jsLowerOpt pa.title) (jsLowerOpt pb.title))))
        else none) := by
  refine ⟨fun t hnd => ?_, fun ta tb hdisj => ?_, fun a b pa pb => ?_⟩
  · have hfilter : (splitWs t).filter (fun word => (splitWs t).contains word) = splitWs t := by
      rw [List.filter_eq_self]
      intro w hw
      simpa [List.contains, List.elem_eq_mem] using hw
    have hdedup : ((splitWs t ++ splitWs t).dedup).length = (splitWs t).length := by
      rw [List.dedup_append, hnd.dedup, union_eq_self_of_subset _ _ (fun x hx => hx)]
    have hne : (splitWs t).length ≠ 0 := by
      simpa [List.length_eq_zero] using splitWs_ne_nil t
    simp only [titleSimilarity, hfilter, hdedup]
    rw [if_pos (Nat.pos_of_ne_zero hne)]
    exact div_self (by exact_mod_cast hne)
  · have hfilter : (splitWs ta).filter (fun word => (splitWs tb).contains word) = [] := by
      rw [List.filter_eq_nil_iff]
      intro w hw
      simp [List.contains, List.elem_eq_mem, hdisj w hw]
    simp only [titleSimilarity, hfilter, List.length_nil, Nat.cast_zero]
    split
    · exact zero_div _
    · rfl
  · by_cases hta : jsLowerOpt pa.title = ""
    · simp [titlePairEdge, hta]
    · by_cases htb : jsLowerOpt pb.title = ""
      · simp [titlePairEdge, hta, htb]
      · by_cases hth : titleSimilarity (jsLowerOpt pa.title) (jsLowerOpt pb.title) ≥ th
        · simp [titlePairEdge, hta, htb, hth]
        · simp [titlePairEdge, hta, htb, hth]

/-- Witness for C4 at concrete titles and a concrete pair. -/
theorem title_similarity_spec_witness :
    titleSimilarity "software engineer" "software engineer" = 1 ∧
      titleSimilarity "abc def" "xyz" = 0 :=
  ⟨(title_similarity_spec (7 / 10)).1 "software engineer" (by decide),
    (title_similarity_spec (7 / 10)).2.1 "abc def" "xyz" (by decide)⟩

/-- Length of the ordered-pair list: a binomial coefficient. -/
theorem pairsOf_length {α : Type} (l : List α) : (pairsOf l).length = l.length.choose 2 := by
  induction l with
  | nil => simp [pairsOf]
  | cons x xs ih =>
    simp [pairsOf, ih, Nat.choose_succ_succ, Nat.choose_one_right, Nat.add_comm]

/-- Both components of an ordered pair come from the list. -/
theorem pairsOf_mem {α : Type} {l : List α} {pq : α × α} (h : pq ∈ pairsOf l) :
    pq.1 ∈ l ∧ pq.2 ∈ l := by
  induction l with
  | nil => simp [pairsOf] at h
  | cons x xs ih =>
    simp only [pairsOf, List.mem_append, List.mem_map] at h
    rcases h with ⟨y, hy, rfl⟩ | h
    · exact ⟨by simp, by simp [hy]⟩
    · exact ⟨by simp [(ih h).1], by simp [(ih h).2]⟩

/-- Filtering distributes over flat maps. -/
theorem filter_flatMap {α β : Type} (l : List α) (f : α → List β) (p : β → Bool) :
    (l.flatMap f).filter p = l.flatMap (fun a => (f a).filter p) := by
  induction l with
  | nil => rfl
  | cons a l ih => simp [List.filter_append, ih]

/-- A flat map over lists that are all empty is empty. -/
theorem flatMap_eq_nil {α β : Type} (l : List α) (f : α → List β)
    (h : ∀ a ∈ l, f a = []) : l.flatMap f = [] := by
  induction l with
  | nil => rfl
  | cons a l ih =>
    simp [h a (by simp), ih (fun x hx => h x (by simp [hx]))]

/-- A flat map over lists that are empty except at one key of a duplicate-free key
list collapses onto the value at that key. -/
theorem flatMap_eq_single {β : Type} {keys : List String} {G : String → List β}
    {c : String} (hmem : c ∈ keys) (hnd : keys.Nodup)
    (hz : ∀ k ∈ keys, k ≠ c → G k = []) : keys.flatMap G = G c := by
  induction keys with
  | nil => simp at hmem
  | cons k ks ih =>
    rcases List.mem_cons.mp hmem with rfl | hc
    · have : ks.flatMap G = [] := by
        refine flatMap_eq_nil ks G (fun x hx => hz x (by simp [hx]) ?_)
        rintro rfl
        exact (List.nodup_cons.mp hnd).1 hx
      simp [this]
    · have hkc : k ≠ c := by
        rintro rfl
        exact (List.nodup_cons.mp hnd).1 hc
      simp [hz k (by simp) hkc,
        ih hc (List.nodup_cons.mp hnd).2 (fun x hx => hz x (by simp [hx]))]

/-- A filter map by a function defined on every element keeps the length. -/
theorem length_filterMap_of_isSome {α β : Type} (l : List α) (g : α → Option β)
    (h : ∀ x ∈ l, (g x).isSome = true) : (l.filterMap g).length = l.length := by
  induction l with
  | nil => rfl
  | cons a l ih =>
    rcases Option.isSome_iff_exists.mp (h a (by simp)) with ⟨b, hb⟩
    simp [List.filterMap_cons, hb, ih (fun x hx => h x (by simp [hx]))]

/-- Edges of one affiliation group all carry that group's company, type and weight. -/
theorem affGroupEdges_mem {db : Db} {company : String} {group : List Profile}
    {e : GnnEdge} (h : e ∈ affGroupEdges db company group) :
    e.edge_type = "affiliation" ∧ e.weight = 1 ∧ e.properties = EdgeProps.company company := by
  unfold affGroupEdges at h
  split at h
  · rcases List.mem_filterMap.mp h with ⟨pq, _, hpq⟩
    unfold affPairEdge at hpq
    split at hpq
    · cases hpq
      exact ⟨rfl, rfl, rfl⟩
    · cases hpq
  · simp at h

/-- C5: for every group of at least two of one user's connected profiles sharing one
(non-empty) exact company string, all of them resolvable to nodes, one run of the
affiliation pass writes exactly one edge per unordered pair of the group — N
choose 2, that is N·(N−1)/2 — each an affiliation edge of weight 1 whose property
bag holds the company. -/
theorem affiliation_group_edge_count (u : String) (db : Db) (c : String)
    (hc : c ≠ "")
    (hN : 2 ≤ (groupOf (fun p => p.company) (userProfiles u db) c).length)
    (hmap : ∀ p ∈ groupOf (fun p => p.company) (userProfiles u db) c,
      (lookupNode db p.id).isSome = true) :
    ((affNewEdges u db).filter
        (fun e => e.properties == EdgeProps.company c)).length =
      (groupOf (fun p => p.company) (userProfiles u db) c).length *
        ((groupOf (fun p => p.company) (userProfiles u db) c).length - 1) / 2 ∧
    ∀ e ∈ (affNewEdges u db).filter (fun e => e.properties == EdgeProps.company c),
      e.edge_type = "affiliation" ∧ e.weight = 1 ∧ e.properties = EdgeProps.company c := by
  set profiles := userProfiles u db with hprof
  set group := groupOf (fun p => p.company) profiles c with hgroup
  have hkey : c ∈ groupKeys (fun p => p.company) profiles := by
    have hne : group ≠ [] := by
      intro hnil
      rw [hnil] at hN
      simp at hN
    obtain ⟨p, hp⟩ := List.exists_mem_of_ne_nil group hne
    have hpc : p.company = some c := by
      have := List.mem_filter.mp (hgroup ▸ hp)
      simpa using this.2
    have hpmem : p ∈ profiles := (List.mem_filter.mp (hgroup ▸ hp)).1
    unfold groupKeys
    rw [List.mem_dedup]
    exact List.mem_filterMap.mpr ⟨p, hpmem, by simp [hpc, optTruthy, hc]⟩
  have hfilter :
      (affNewEdges u db).filter (fun e => e.properties == EdgeProps.company c) =
        affGroupEdges db c group := by
    show ((groupKeys (fun p => p.company) profiles).flatMap (fun company =>
        affGroupEdges db company (groupOf (fun p => p.company) profiles company))).filter
          (fun e => e.properties == EdgeProps.company c) = _
    rw [filter_flatMap]
    rw [flatMap_eq_single hkey (List.nodup_dedup _)
      (fun k _ hkc => List.filter_eq_nil_iff.mpr (fun e he => by
        have := (affGroupEdges_mem he).2.2
        simp [this, hkc]))]
    exact List.filter_eq_self.mpr (fun e he => by simp [(affGroupEdges_mem he).2.2])
  refine ⟨?_, fun e he => affGroupEdges_mem (hfilter ▸ he)⟩
  rw [hfilter]
  unfold affGroupEdges
  rw [if_pos (by omega)]
  rw [length_filterMap_of_isSome _ _ (fun pq hpq => ?_), pairsOf_length,
    Nat.choose_two_right]
  obtain ⟨h1, h2⟩ := pairsOf_mem hpq
  unfold affPairEdge
  rcases Option.isSome_iff_exists.mp (hmap pq.1 h1) with ⟨n1, hn1⟩
  rcases Option.isSome_iff_exists.mp (hmap pq.2 h2) with ⟨n2, hn2⟩
  rw [hn1, hn2]
  rfl

/-- Witness for C5: the two-profile Acme database yields exactly one affiliation
edge of weight 1 for company Acme. -/
theorem affiliation_group_edge_count_witness :
    (("Acme" : String) ≠ "") ∧
    2 ≤ (groupOf (fun p => p.company) (userProfiles "u" dbAcme) "Acme").length ∧
    ((affNewEdges "u" dbAcme).filter
      (fun e => e.properties == EdgeProps.company "Acme")).length =
      (groupOf (fun p => p.company) (userProfiles "u" dbAcme) "Acme").length *
        ((groupOf (fun p => p.company) (userProfiles "u" dbAcme) "Acme").length - 1) / 2 :=
  ⟨by decide, by decide,
    (affiliation_group_edge_count "u" dbAcme "Acme" (by decide) (by decide)
      (by decide)).1⟩

/-- C9: parseCSV never rejects an input for lacking a recognizable header: when no
line satisfies the First Name header condition and none of the first ten lines
holds a comma together with Name, Email or URL, the first line is used as the
header row and parsing proceeds over the remaining lines, returning the (possibly
empty) contact list. -/
theorem parse_csv_header_fallback (content : String)
    (h1 : ∀ line ∈ jsSplit content '\n', headerCond1 line = false)
    (h2 : ∀ line ∈ (jsSplit content '\n').take 10, headerCond2 line = false) :
    findHeaderRow (jsSplit content '\n') = 0 ∧
      parseCSV content = parseCSVFrom (jsSplit content '\n') 0 := by
  have hidx : findHeaderRow (jsSplit content '\n') = 0 := by
    unfold findHeaderRow
    rw [List.findIdx?_eq_none_iff.mpr (by simpa using h1),
      List.findIdx?_eq_none_iff.mpr (by simpa using h2)]
  exact ⟨hidx, by rw [parseCSV, hidx]⟩

/-- Witness for C9 on a concrete two-line input without any recognizable header. -/
theorem parse_csv_header_fallback_witness :
    findHeaderRow (jsSplit "alpha;beta\ngamma;delta" '\n') = 0 ∧
      parseCSV "alpha;beta\ngamma;delta" =
        parseCSVFrom (jsSplit "alpha;beta\ngamma;delta" '\n') 0 :=
  parse_csv_header_fallback "alpha;beta\ngamma;delta" (by decide) (by decide)

/-- The reason text assembled by the prediction builder agrees with its
specification reading: the nonzero factors in the fixed order, or the fallback. -/
theorem predictionFor_reason (u : String) (db : Db) (n : String) :
    (predictionFor u db n).reason =
      specReason (edgeCountTouching db "mutual" n) (edgeCountTouching db "affiliation" n)
        (edgeCountTouching db "title_similarity" n) := by
  by_cases hm : edgeCountTouching db "mutual" n = 0 <;>
    by_cases ha : edgeCountTouching db "affiliation" n = 0 <;>
      by_cases ht : edgeCountTouching db "title_similarity" n = 0 <;>
        simp [predictionFor, specReason, hm, ha, ht, Nat.pos_of_ne_zero,
          String.intercalate]

/-- C3: with every candidate resolvable to exactly one node, one run of link
prediction persists exactly one row per profile not already connected to the user;
each row targets the candidate's node, scores it by the clamped weighted edge-type
counts touching that node — mutual times 0.2, affiliation times 0.15,
title-similarity times 0.1, capped at 1 — and carries the reason text listing the
nonzero factors in the fixed order mutual, affiliation, title-similarity, with the
generic fallback when all three counts are zero. -/
theorem generate_predictions_spec (u : String) (db : Db)
    (hmap : ∀ p ∈ predictionCandidates u db, (lookupNodeSingle db p.id).isSome = true) :
    (generatePredictions u db).length = (predictionCandidates u db).length ∧
    (∀ p : Profile, p ∈ predictionCandidates u db ↔
      (p ∈ db.profiles ∧ p.id ∉ connectedProfileIds u db)) ∧
    (∀ p ∈ predictionCandidates u db, ∀ n, lookupNodeSingle db p.id = some n →
      predictionFor u db n ∈ generatePredictions u db ∧
      (predictionFor u db n).source_node_id = "user_" ++ u ∧
      (predictionFor u db n).target_node_id = n ∧
      (predictionFor u db n).score =
        min 1 ((edgeCountTouching db "mutual" n : ℚ) * 0.2 +
          (edgeCountTouching db "affiliation" n : ℚ) * 0.15 +
          (edgeCountTouching db "title_similarity" n : ℚ) * 0.1) ∧
      (predictionFor u db n).reason =
        specReason (edgeCountTouching db "mutual" n) (edgeCountTouching db "affiliation" n)
          (edgeCountTouching db "title_similarity" n)) := by
  refine ⟨?_, fun p => ?_, fun p hp n hn => ?_⟩
  · exact length_filterMap_of_isSome _ _ (fun p hp => by
      simpa using hmap p hp)
  · unfold predictionCandidates
    rw [List.mem_filter]
    simp [List.contains, List.elem_eq_mem]
  · refine ⟨List.mem_filterMap.mpr ⟨p, hp, by rw [hn]; rfl⟩, rfl, rfl, rfl,
      predictionFor_reason u db n⟩

/-- Witness for C3 on the concrete prediction database. -/
theorem generate_predictions_spec_witness :
    (generatePredictions "u" dbPred).length = (predictionCandidates "u" dbPred).length ∧
      predictionFor "u" dbPred "nq2" ∈ generatePredictions "u" dbPred :=
  ⟨(generate_predictions_spec "u" dbPred (by decide)).1,
    ((generate_predictions_spec "u" dbPred (by decide)).2.2 profQ2 (by decide) "nq2"
      (by decide)).1⟩

/-- The last-write-wins lookup of a row list with duplicate-free ids finds each of
its rows by its own id. -/
theorem lookupProfileLast_self {l : List Profile} (hl : (l.map Profile.id).Nodup)
    {p : Profile} (hp : p ∈ l) : lookupProfileLast l p.id = some p := by
  induction l with
  | nil => simp at hp
  | cons q l ih =>
    rw [List.map_cons, List.nodup_cons] at hl
    rcases List.mem_cons.mp hp with rfl | hpl
    · have hnone : l.filter (fun x => x.id == p.id) = [] := by
        rw [List.filter_eq_nil_iff]
        intro x hx hbeq
        have hxe : x.id = p.id := by simpa using hbeq
        exact hl.1 (by rw [List.mem_map]; exact ⟨x, hx, hxe⟩)
      unfold lookupProfileLast
      simp [List.filter_cons, hnone]
    · have hne : (q.id == p.id) = false := by
        rw [beq_eq_false_iff_ne]
        intro hqp
        exact hl.1 (by rw [List.mem_map]; exact ⟨p, hpl, hqp.symm⟩)
      unfold lookupProfileLast at ih ⊢
      rw [List.filter_cons]
      simp only [hne, Bool.false_eq_true, if_false]
      exact ih hl.2 hpl

/-- What a successful last-write-wins lookup returns: a row of the list carrying the
looked-up id. -/
theorem lookupProfileLast_mem {l : List Profile} {i : String} {p : Profile}
    (h : lookupProfileLast l i = some p) : p ∈ l ∧ p.id = i := by
  unfold lookupProfileLast at h
  have hp := List.mem_of_getLast?_eq_some h
  rw [List.mem_filter] at hp
  exact ⟨hp.1, by simpa using hp.2⟩

/-- Characterization of the predicted-match rows of one run: exactly the rows built
from a non-mutual id pair whose looked-up profiles reach the threshold. -/
theorem mem_predictedResultsOf {connsA connsB : List Profile}
    {mu : List String} {r : CompResult} :
    r ∈ predictedResultsOf connsA connsB mu ↔
      ∃ ia pa ib pb, ia ∈ connsA.map (fun p => p.id) ∧ mu.contains ia = false ∧
        lookupProfileLast connsA ia = some pa ∧
        ib ∈ connsB.map (fun p => p.id) ∧ mu.contains ib = false ∧
        lookupProfileLast connsB ib = some pb ∧
        matchScore pa pb ≥ 0.3 ∧
        r = { result_type := "predicted_match", profile_a_id := some ia,
              profile_b_id := some ib, score := matchScore pa pb,
              details := .predicted (matchFactors pa pb) } := by
  constructor
  · intro h
    unfold predictedResultsOf at h
    rw [List.mem_flatMap] at h
    obtain ⟨ia, hia, hr⟩ := h
    split at hr
    case isTrue => simp at hr
    case isFalse hmu =>
      rw [Bool.not_eq_true] at hmu
      split at hr
      case h_1 => simp at hr
      case h_2 pa hpa =>
        unfold predictedRowsFor at hr
        rw [List.mem_filterMap] at hr
        obtain ⟨ib, hib, hrow⟩ := hr
        split at hrow
        case isTrue => cases hrow
        case isFalse hmub =>
          rw [Bool.not_eq_true] at hmub
          split at hrow
          case h_1 => cases hrow
          case h_2 pb hpb =>
            simp only at hrow
            split at hrow
            case isTrue hsc =>
              exact ⟨ia, pa, ib, pb, hia, hmu, hpa, hib, hmub, hpb, hsc,
                (Option.some.injEq _ _ ▸ hrow).symm⟩
            case isFalse => cases hrow
  · rintro ⟨ia, pa, ib, pb, hia, hmu, hpa, hib, hmub, hpb, hsc, rfl⟩
    unfold predictedResultsOf
    rw [List.mem_flatMap]
    refine ⟨ia, hia, ?_⟩
    rw [if_neg (by rw [hmu]; exact Bool.false_ne_true), hpa]
    unfold predictedRowsFor
    rw [List.mem_filterMap]
    refine ⟨ib, hib, ?_⟩
    rw [if_neg (by rw [hmub]; exact Bool.false_ne_true), hpb]
    simp only [ge_iff_le, hsc, if_pos]

/-- Membership in the mutual-id list is joint connectedness. -/
theorem mem_mutualIdsOf {connsA connsB : List Profile} {i : String} :
    i ∈ mutualIdsOf connsA connsB ↔
      i ∈ connsA.map (fun p => p.id) ∧ i ∈ connsB.map (fun p => p.id) := by
  unfold mutualIdsOf
  rw [List.mem_filter]
  simp [List.contains, List.elem_eq_mem]

/-- C2: in a comparison run over two users with duplicate-free connection lists,
every profile connected to both yields exactly one mutual_connection row, every
mutual_connection row has score 1 and equal profile references; and for every pair
of profiles of which neither is a mutual connection, a predicted_match row carrying
the additive score and the factor breakdown is present exactly when the score
reaches 0.3 — and every predicted_match row arises that way. -/
theorem compare_networks_results (connsA connsB : List Profile)
    (hA : (connsA.map (fun p => p.id)).Nodup) (hB : (connsB.map (fun p => p.id)).Nodup) :
    (∀ pid : String,
      ((compareResults connsA connsB).filter (fun r =>
        r.result_type == "mutual_connection" && r.profile_a_id == some pid)).length =
        if pid ∈ connsA.map (fun p => p.id) ∧ pid ∈ connsB.map (fun p => p.id) then 1
        else 0) ∧
    (∀ r ∈ compareResults connsA connsB, r.result_type = "mutual_connection" →
      r.score = 1 ∧ r.profile_a_id = r.profile_b_id) ∧
    (∀ pa ∈ connsA, ∀ pb ∈ connsB,
      pa.id ∉ connsB.map (fun p => p.id) → pb.id ∉ connsA.map (fun p => p.id) →
      (specPredictedRow pa pb ∈ compareResults connsA connsB ↔
        matchScore pa pb ≥ 0.3)) ∧
    (∀ r ∈ compareResults connsA connsB, r.result_type = "predicted_match" →
      ∃ pa pb, pa ∈ connsA ∧ pb ∈ connsB ∧ pa.id ∉ connsB.map (fun p => p.id) ∧
        pb.id ∉ connsA.map (fun p => p.id) ∧ matchScore pa pb ≥ 0.3 ∧
        r = specPredictedRow pa pb) := by
  have hmunodup : (mutualIdsOf connsA connsB).Nodup := hA.filter _
  have hcontains : ∀ (l : List String) (i : String),
      l.contains i = false ↔ i ∉ l := by
    intro l i
    simp [List.contains, List.elem_eq_mem]
  refine ⟨fun pid => ?_, fun r hr htype => ?_, fun pa hpa pb hpb hnab hnba => ?_,
    fun r hr htype => ?_⟩
  · show ((((mutualIdsOf connsA connsB).map mutualRow) ++
      predictedResultsOf connsA connsB (mutualIdsOf connsA connsB) ++
      tagResultsOf connsA connsB).filter _).length = _
    rw [List.filter_append, List.filter_append, List.length_append, List.length_append]
    have hpred : (predictedResultsOf connsA connsB (mutualIdsOf connsA connsB)).filter
        (fun r => r.result_type == "mutual_connection" && r.profile_a_id == some pid) = [] := by
      rw [List.filter_eq_nil_iff]
      intro r hrmem
      obtain ⟨ia, pa, ib, pb, _, _, _, _, _, _, _, rfl⟩ :=
        mem_predictedResultsOf.mp hrmem
      simp
    have htag : (tagResultsOf connsA connsB).filter
        (fun r => r.result_type == "mutual_connection" && r.profile_a_id == some pid) = [] := by
      rw [List.filter_eq_nil_iff]
      intro r hrmem
      unfold tagResultsOf at hrmem
      obtain ⟨t, _, rfl⟩ := List.mem_map.mp hrmem
      simp [tagRow]
    rw [hpred, htag]
    have hfun : (fun r => r.result_type == "mutual_connection" &&
        r.profile_a_id == some pid) ∘ mutualRow = (fun i => i == pid) := by
      funext i
      simp [mutualRow]
    rw [List.filter_map, hfun, List.length_map]
    have hcount : (List.filter (fun i => i == pid) (mutualIdsOf connsA connsB)).length =
        if pid ∈ mutualIdsOf connsA connsB then 1 else 0 := by
      rw [← List.countP_eq_length_filter]
      exact List.count_eq_of_nodup hmunodup
    rw [hcount]
    simp only [List.length_nil, Nat.add_zero]
    by_cases hmem : pid ∈ mutualIdsOf connsA connsB
    · rw [if_pos hmem, if_pos (mem_mutualIdsOf.mp hmem)]
    · rw [if_neg hmem, if_neg (fun hc => hmem (mem_mutualIdsOf.mpr hc))]
  · rcases List.mem_append.mp hr with hr' | hrt
    · rcases List.mem_append.mp hr' with hrm | hrp
      · obtain ⟨i, _, rfl⟩ := List.mem_map.mp hrm
        exact ⟨rfl, rfl⟩
      · obtain ⟨ia, pa, ib, pb, _, _, _, _, _, _, _, rfl⟩ :=
          mem_predictedResultsOf.mp hrp
        simp at htype
    · unfold tagResultsOf at hrt
      obtain ⟨t, _, rfl⟩ := List.mem_map.mp hrt
      simp [tagRow] at htype
  · have hmupa : (mutualIdsOf connsA connsB).contains pa.id = false := by
      rw [hcontains]
      intro hc
      exact hnab (mem_mutualIdsOf.mp hc).2
    have hmupb : (mutualIdsOf connsA connsB).contains pb.id = false := by
      rw [hcontains]
      intro hc
      exact hnba (mem_mutualIdsOf.mp hc).1
    constructor
    · intro hmem
      rcases List.mem_append.mp hmem with hr' | hrt
      · rcases List.mem_append.mp hr' with hrm | hrp
        · obtain ⟨i, _, heq⟩ := List.mem_map.mp hrm
          have := congrArg CompResult.result_type heq
          simp [mutualRow, specPredictedRow] at this
        · obtain ⟨ia, pa', ib, pb', hia, hmua, hpa', hib, hmub, hpb', hsc, heq⟩ :=
            mem_predictedResultsOf.mp hrp
          rw [specPredictedRow, CompResult.mk.injEq] at heq
          obtain ⟨-, haid, hbid, -, -⟩ := heq
          rw [Option.some.injEq] at haid hbid
          subst haid hbid
          rw [lookupProfileLast_self hA hpa] at hpa'
          rw [lookupProfileLast_self hB hpb] at hpb'
          cases hpa'
          cases hpb'
          exact hsc
      · unfold tagResultsOf at hrt
        obtain ⟨t, _, heq⟩ := List.mem_map.mp hrt
        have := congrArg CompResult.result_type heq
        simp [tagRow, specPredictedRow] at this
    · intro hsc
      refine List.mem_append.mpr (Or.inl (List.mem_append.mpr (Or.inr ?_)))
      exact mem_predictedResultsOf.mpr ⟨pa.id, pa, pb.id, pb,
        List.mem_map.mpr ⟨pa, hpa, rfl⟩, hmupa, lookupProfileLast_self hA hpa,
        List.mem_map.mpr ⟨pb, hpb, rfl⟩, hmupb, lookupProfileLast_self hB hpb, hsc, rfl⟩
  · rcases List.mem_append.mp hr with hr' | hrt
    · rcases List.mem_append.mp hr' with hrm | hrp
      · obtain ⟨i, _, rfl⟩ := List.mem_map.mp hrm
        simp [mutualRow] at htype
      · obtain ⟨ia, pa, ib, pb, hia, hmua, hpa, hib, hmub, hpb, hsc, rfl⟩ :=
          mem_predictedResultsOf.mp hrp
        obtain ⟨hpamem, hpaid⟩ := lookupProfileLast_mem hpa
        obtain ⟨hpbmem, hpbid⟩ := lookupProfileLast_mem hpb
        refine ⟨pa, pb, hpamem, hpbmem, ?_, ?_, hsc, ?_⟩
        · rw [hpaid]
          intro hc
          exact (hcontains _ ia).mp hmua (mem_mutualIdsOf.mpr ⟨hia, hc⟩)
        · rw [hpbid]
          intro hc
          exact (hcontains _ ib).mp hmub (mem_mutualIdsOf.mpr ⟨hc, hib⟩)
        · rw [specPredictedRow, hpaid, hpbid]
    · unfold tagResultsOf at hrt
      obtain ⟨t, _, rfl⟩ := List.mem_map.mp hrt
      simp [tagRow] at htype

/-- Witness for C2 on the specification's example shape: users sharing one profile
and otherwise connected to two same-company profiles. -/
theorem compare_networks_results_witness :
    ((compareResults connsWA connsWB).filter (fun r =>
      r.result_type == "mutual_connection" && r.profile_a_id == some "p1")).length =
      (if "p1" ∈ connsWA.map (fun p => p.id) ∧ "p1" ∈ connsWB.map (fun p => p.id) then 1
        else 0) ∧
    specPredictedRow profW2 profW3 ∈ compareResults connsWA connsWB :=
  ⟨(compare_networks_results connsWA connsWB (by decide) (by decide)).1 "p1",
    ((compare_networks_results connsWA connsWB (by decide) (by decide)).2.2.1 profW2
      (by decide) profW3 (by decide) (by decide) (by decide)).mpr
      (by
        norm_num [matchScore, optTruthy, profW2, profW3]
        rw [if_neg (by decide)])⟩

/-- Decimal digit characters are digits. -/
theorem digitChar_isDigit : ∀ d, d < 10 → (digitChar d).isDigit = true := by decide

/-- Code of a decimal digit character. -/
theorem digitChar_toNat : ∀ d, d < 10 → (digitChar d).toNat = 48 + d := by decide

/-- Digit characters produced by the zero-padded renderings are digits. -/
theorem digit_mod_isDigit (m : Nat) : (digitChar (m % 10)).isDigit = true :=
  digitChar_isDigit _ (Nat.mod_lt _ (by norm_num))

/-- One digit step of the greedy reader. -/
theorem readNat_step (m : Nat) (cs : List Char) (acc k : Nat) :
    readNatAux (digitChar (m % 10) :: cs) acc k =
      readNatAux cs (acc * 10 + m % 10) (k + 1) := by
  have h1 := digit_mod_isDigit m
  have h2 := digitChar_toNat (m % 10) (Nat.mod_lt _ (by norm_num))
  simp [readNatAux, h1, h2]

/-- The greedy reader stops at a dash. -/
theorem readNat_stop_dash (cs : List Char) (acc k : Nat) :
    readNatAux ('-' :: cs) acc k = (acc, k, '-' :: cs) := by
  simp [readNatAux, show ('-' : Char).isDigit = false from by decide]

/-- The greedy reader stops at a T. -/
theorem readNat_stop_T (cs : List Char) (acc k : Nat) :
    readNatAux ('T' :: cs) acc k = (acc, k, 'T' :: cs) := by
  simp [readNatAux, show ('T' : Char).isDigit = false from by decide]

/-- The greedy reader stops at a colon. -/
theorem readNat_stop_colon (cs : List Char) (acc k : Nat) :
    readNatAux (':' :: cs) acc k = (acc, k, ':' :: cs) := by
  simp [readNatAux, show (':' : Char).isDigit = false from by decide]

/-- The greedy reader stops at a dot. -/
theorem readNat_stop_dot (cs : List Char) (acc k : Nat) :
    readNatAux ('.' :: cs) acc k = (acc, k, '.' :: cs) := by
  simp [readNatAux, show ('.' : Char).isDigit = false from by decide]

/-- The greedy reader stops at a Z. -/
theorem readNat_stop_Z (cs : List Char) (acc k : Nat) :
    readNatAux ('Z' :: cs) acc k = (acc, k, 'Z' :: cs) := by
  simp [readNatAux, show ('Z' : Char).isDigit = false from by decide]

/-- The string kernel recognizes its own canonical rendering and recovers every
component. -/
theorem parseCandidate_toISO (c : Civil) (h : c.Valid) :
    parseCandidate (toISOChars c) =
      some (c.year, c.month, c.day, c.hour, c.minute, c.second, c.ms) := by
  obtain ⟨h1, h2, h3, h4, h5, h6, h7, h8, h9⟩ := h
  have hday : c.day ≤ 31 := le_trans h5 (by unfold daysInMonth; split_ifs <;> norm_num)
  unfold parseCandidate parseDash
  simp only [toISOChars, pad4, pad2, pad3, List.cons_append, List.nil_append,
    readNat_step, readNat_stop_dash, readNat_stop_T, readNat_stop_colon,
    readNat_stop_dot, readNat_stop_Z]
  norm_num
  unfold parseTimePart parseSecPart parseMsPart finishTime
  simp only [readNat_step, readNat_stop_dash, readNat_stop_T, readNat_stop_colon,
    readNat_stop_dot, readNat_stop_Z]
  norm_num
  refine ⟨?_, ?_, ?_, ?_, ?_, ?_, ?_⟩ <;> omega

/-- The string kernel only constructs valid datetimes. -/
theorem jsNewDate_valid {s : String} {c : Civil} (h : jsNewDate s = some c) : c.Valid := by
  unfold jsNewDate at h
  cases hp : parseCandidate s.toList with
  | none => rw [hp] at h; cases h
  | some t =>
    rw [hp] at h
    simp only [Option.bind] at h
    unfold mkCivil at h
    split at h
    case isTrue hcond =>
      cases h
      exact hcond
    case isFalse => cases h

/-- The string kernel inverts the canonical rendering of a valid datetime. -/
theorem jsNewDate_toISO (c : Civil) (h : c.Valid) : jsNewDate (toISOString c) = some c := by
  unfold jsNewDate toISOString
  show (parseCandidate (toISOChars c)).bind _ = some c
  rw [parseCandidate_toISO c h]
  simp only [Option.bind]
  unfold mkCivil
  split
  · rfl
  · case isFalse hne => exact absurd h hne

/-- Every character of the canonical rendering is a digit or one of the five
punctuation marks. -/
theorem mem_toISO {c : Civil} {ch : Char} (hch : ch ∈ toISOChars c) :
    (ch.isDigit || ch == '-' || ch == ':' || ch == 'T' || ch == '.' || ch == 'Z') = true := by
  have hall : (toISOChars c).all (fun x =>
      x.isDigit || x == '-' || x == ':' || x == 'T' || x == '.' || x == 'Z') = true := by
    simp [toISOChars, pad4, pad2, pad3, digit_mod_isDigit]
  exact List.all_eq_true.mp hall ch hch

/-- The canonical rendering is never the empty string. -/
theorem toISO_ne_empty (c : Civil) : toISOString c ≠ "" := by
  intro heq
  have : toISOChars c = [] := congrArg String.data heq
  simp [toISOChars, pad4] at this

/-- The canonical rendering never holds a slash. -/
theorem toISO_no_slash (c : Civil) : containsChar (toISOString c) '/' = false := by
  rw [containsChar]
  rw [Bool.eq_false_iff]
  intro hc
  have hmem : '/' ∈ toISOChars c := by
    have : (toISOString c).toList = toISOChars c := rfl
    rw [this] at hc
    simpa [List.contains, List.elem_eq_mem] using hc
  have := mem_toISO hmem
  simp at this

/-- The canonical rendering never holds whitespace. -/
theorem toISO_no_ws (c : Civil) : ∀ ch ∈ toISOChars c, isWsChar ch = false := by
  intro ch hch
  rw [Bool.eq_false_iff]
  intro hws
  have hiso := mem_toISO hch
  simp only [isWsChar, Bool.or_eq_true, decide_eq_true_eq] at hws
  rcases hws with ((((rfl | rfl) | rfl) | rfl) | rfl) | rfl <;> simp at hiso

/-- The canonical rendering holds a dash. -/
theorem toISO_has_dash (c : Civil) : containsChar (toISOString c) '-' = true := by
  rw [containsChar]
  have : (toISOString c).toList = toISOChars c := rfl
  rw [this]
  simp [toISOChars, pad4, pad2, pad3, List.contains, List.elem_eq_mem]

/-- The canonical rendering holds a colon. -/
theorem toISO_has_colon (c : Civil) : containsChar (toISOString c) ':' = true := by
  rw [containsChar]
  have : (toISOString c).toList = toISOChars c := rfl
  rw [this]
  simp [toISOChars, pad4, pad2, pad3, List.contains, List.elem_eq_mem]

/-- A match of the month-name pattern tail requires a whitespace character. -/
theorem monTail_eq_true {cs : List Char} (h : monTail cs = true) :
    ∃ w ∈ cs, isWsChar w = true := by
  unfold monTail at h
  split at h
  case h_1 w a b c w2 y1 y2 y3 y4 rest =>
    simp only [Bool.and_eq_true] at h
    exact ⟨w, by simp, h.1.1.1.1.1.1.1.1⟩
  case h_2 => cases h

/-- The month-name search pattern cannot match at a whitespace-free position. -/
theorem ddMonAt_false {cs : List Char} (h : ∀ ch ∈ cs, isWsChar ch = false) :
    ddMonAt cs = false := by
  cases cs with
  | nil => rfl
  | cons d rest =>
    have hm2 : monTail rest = false := by
      rw [Bool.eq_false_iff]
      intro hmt
      obtain ⟨w, hw, hws⟩ := monTail_eq_true hmt
      rw [h w (by simp [hw])] at hws
      cases hws
    unfold ddMonAt
    cases rest with
    | nil => simp [hm2]
    | cons d2 rest2 =>
      have hm1 : monTail rest2 = false := by
        rw [Bool.eq_false_iff]
        intro hmt
        obtain ⟨w, hw, hws⟩ := monTail_eq_true hmt
        rw [h w (by simp [hw])] at hws
        cases hws
      simp [hm1, hm2]

/-- The month-name search over the canonical rendering fails. -/
theorem toISO_no_ddMon (c : Civil) :
    regexSearch ddMonAt (toISOString c).toList = false := by
  have hl : (toISOString c).toList = toISOChars c := rfl
  rw [regexSearch, hl]
  rw [List.any_eq_false]
  intro t ht
  have hsub : t ⊆ toISOChars c := (List.mem_tails _ _ |>.mp ht).subset
  rw [Bool.not_eq_true]
  exact ddMonAt_false (fun ch hch => toISO_no_ws c ch (hsub hch))

/-- Every parse exit answers the rendering of a valid datetime. -/
theorem dateOrNow_output (s : String) (now : Civil) (h : now.Valid) :
    ∃ e : Civil, e.Valid ∧ dateOrNow s now = toISOString e := by
  unfold dateOrNow
  cases hjs : jsNewDate s with
  | none => exact ⟨now, h, rfl⟩
  | some c => exact ⟨c, jsNewDate_valid hjs, rfl⟩

/-- The tail branches always answer the rendering of a valid datetime. -/
theorem parseConnTail_output (s : String) (now : Civil) (h : now.Valid) :
    ∃ e : Civil, e.Valid ∧ parseConnTail s now = toISOString e := by
  unfold parseConnTail
  split
  · exact dateOrNow_output s now h
  · split
    · exact dateOrNow_output s now h
    · split
      · split
        · exact dateOrNow_output _ now h
        · exact dateOrNow_output s now h
      · exact dateOrNow_output s now h

/-- Present-input unfolding of date normalization. -/
theorem parseConnectionDate_some (s : String) (now : Civil) :
    parseConnectionDate (some s) now =
      if s = "" then toISOString now
      else if containsChar s '/' = true then
        match jsSplit s '/' with
        | [month, day, year] => dateOrNow (year ++ "-" ++ month ++ "-" ++ day) now
        | _ => parseConnTail s now
      else parseConnTail s now := rfl

/-- Every output of date normalization is the canonical rendering of a valid
datetime. -/
theorem parseConnectionDate_output (s : Option String) (now : Civil) (h : now.Valid) :
    ∃ e : Civil, e.Valid ∧ parseConnectionDate s now = toISOString e := by
  cases s with
  | none => exact ⟨now, h, rfl⟩
  | some str =>
    rw [parseConnectionDate_some]
    split
    · exact ⟨now, h, rfl⟩
    · split
      · split
        · exact dateOrNow_output _ now h
        · exact parseConnTail_output str now h
      · exact parseConnTail_output str now h

/-- Re-normalizing a canonical rendering returns it unchanged: the rendering is
non-empty, has no slash, fails the month-name search, and holds a dash and a colon,
so the ISO branch re-parses it through the kernel roundtrip. -/
theorem parse_iso (c : Civil) (hc : c.Valid) (now : Civil) :
    parseConnectionDate (some (toISOString c)) now = toISOString c := by
  rw [parseConnectionDate_some]
  rw [if_neg (toISO_ne_empty c)]
  rw [toISO_no_slash c]
  simp only [Bool.false_eq_true, if_false]
  unfold parseConnTail
  rw [toISO_no_ddMon c]
  simp only [Bool.false_eq_true, if_false]
  rw [toISO_has_dash c, toISO_has_colon c]
  simp only [Bool.and_self, if_true]
  unfold dateOrNow
  rw [jsNewDate_toISO c hc]

/-- C7: date normalization is idempotent on every input: the canonical output of
parseConnectionDate, normalized again (at any later current instant), is returned
unchanged, so re-normalizing yields the same instant as the first application. -/
theorem parse_connection_date_idempotent (s : Option String) (now now2 : Civil)
    (h : now.Valid) :
    parseConnectionDate (some (parseConnectionDate s now)) now2 =
      parseConnectionDate s now := by
  obtain ⟨e, he, heq⟩ := parseConnectionDate_output s now h
  rw [heq, parse_iso e he now2]

/-- Witness for C7 at a concrete slash-shaped date and concrete instants. -/
theorem parse_connection_date_idempotent_witness :
    Civil.Valid ⟨2026, 1, 2, 3, 4, 5, 6⟩ ∧
      parseConnectionDate
        (some (parseConnectionDate (some "04/06/2025") ⟨2026, 1, 2, 3, 4, 5, 6⟩))
        ⟨2030, 1, 1, 0, 0, 0, 0⟩ =
        parseConnectionDate (some "04/06/2025") ⟨2026, 1, 2, 3, 4, 5, 6⟩ :=
  ⟨by decide,
    parse_connection_date_idempotent (some "04/06/2025") ⟨2026, 1, 2, 3, 4, 5, 6⟩
      ⟨2030, 1, 1, 0, 0, 0, 0⟩ (by decide)⟩

end Netlytics
